import Mathlib

/-!
Verification of the Toss clipboard-sync core (rust_core) and relay server
(relay_server) against their design specification.

The Rust sources are shallowly embedded: pure fragments become Lean
functions over byte lists (bytes are Nat values, strings are Char lists),
stateful fragments become explicit state passing, randomness (fresh keys,
nonces) becomes explicit inputs, and fallible fragments return Except or
Option.  External crypto crates (sha2, hkdf, x25519-dalek, ed25519-dalek,
aes-gcm) are not code of this repository; they are modelled by an abstract
CryptoModel carrying exactly the algebraic contracts the crates document
(output lengths, DH commutativity, signature roundtrip, AEAD inversion),
together with a small executable instance used to evaluate concrete runs.
Hex and base64 (the hex and base64 crates, STANDARD engine with required
canonical padding) are implemented concretely because byte-level encoding
details decide several claims.
-/

namespace Toss

/-- Embedding of hex encoding as used by hex::encode: two lowercase hex
digits per byte. -/
def hexEncode : List Nat → List Char
  | [] => []
  | b :: rest => Nat.digitChar (b / 16) :: Nat.digitChar (b % 16) :: hexEncode rest

theorem hexEncode_length (bs : List Nat) : (hexEncode bs).length = 2 * bs.length := by
  induction bs with
  | nil => rfl
  | cons b rest ih => simp [hexEncode, ih]; ring

theorem hexEncode_take (bs : List Nat) (n : Nat) :
    hexEncode (bs.take n) = (hexEncode bs).take (2 * n) := by
  induction bs generalizing n with
  | nil => simp [hexEncode]
  | cons b rest ih =>
    cases n with
    | zero => simp [hexEncode]
    | succ m =>
      have h2 : 2 * (m + 1) = (2 * m) + 1 + 1 := by ring
      simp [hexEncode, List.take_succ_cons, ih, h2]

/-- Alphabet of the standard base64 engine. -/
def b64Chars : List Char :=
  "ABCDEFGHIJKLMNOPQRSTUVWXYZabcdefghijklmnopqrstuvwxyz0123456789+/".toList

def b64Char (n : Nat) : Char := b64Chars.getD n '?'

/-- Embedding of base64 STANDARD encoding (with padding) of a byte list. -/
def b64Encode : List Nat → List Char
  | [] => []
  | [a] => [b64Char (a / 4), b64Char (a % 4 * 16), '=', '=']
  | [a, b] => [b64Char (a / 4), b64Char (a % 4 * 16 + b / 16), b64Char (b % 16 * 4), '=']
  | a :: b :: c :: rest =>
      b64Char (a / 4) :: b64Char (a % 4 * 16 + b / 16) ::
      b64Char (b % 16 * 4 + c / 64) :: b64Char (c % 64) :: b64Encode rest

theorem b64Encode_length (bs : List Nat) :
    (b64Encode bs).length = 4 * ((bs.length + 2) / 3) := by
  match bs with
  | [] => rfl
  | [a] => simp [b64Encode]
  | [a, b] => simp [b64Encode]
  | a :: b :: c :: rest =>
    have ih := b64Encode_length rest
    have hdiv : (rest.length + 3 + 2) / 3 = (rest.length + 2) / 3 + 1 := by
      have := Nat.add_div_right (rest.length + 2) (show 0 < 3 by norm_num)
      omega
    simp [b64Encode, ih]
    omega

def b64Val (ch : Char) : Option Nat := b64Chars.findIdx? (· == ch)

/-- Decode one final base64 block of four symbols, allowing canonical
padding and requiring zero trailing bits. -/
def b64DecodeLast (a b c d : Char) : Option (List Nat) :=
  if c = '=' ∧ d = '=' then
    match b64Val a, b64Val b with
    | some va, some vb => if vb % 16 = 0 then some [va * 4 + vb / 16] else none
    | _, _ => none
  else if d = '=' then
    match b64Val a, b64Val b, b64Val c with
    | some va, some vb, some vc =>
        if vc % 4 = 0 then some [va * 4 + vb / 16, vb % 16 * 16 + vc / 4] else none
    | _, _, _ => none
  else
    match b64Val a, b64Val b, b64Val c, b64Val d with
    | some va, some vb, some vc, some vd =>
        some [va * 4 + vb / 16, vb % 16 * 16 + vc / 4, vc % 4 * 64 + vd]
    | _, _, _, _ => none

def b64DecodeGo : List Char → Option (List Nat)
  | [] => some []
  | a :: b :: c :: d :: rest =>
      match rest with
      | [] => b64DecodeLast a b c d
      | _ :: _ =>
          -- an interior block may not carry padding; b64Val of the padding
          -- character yields none, which rejects stray padding here
          match b64Val a, b64Val b, b64Val c, b64Val d, b64DecodeGo rest with
          | some va, some vb, some vc, some vd, some tail =>
              some ((va * 4 + vb / 16) :: (vb % 16 * 16 + vc / 4) :: (vc % 4 * 64 + vd) :: tail)
          | _, _, _, _, _ => none
  | _ => none

def b64Decode (cs : List Char) : Option (List Nat) := b64DecodeGo cs

theorem b64Decode_none_of_length_mod (cs : List Char) (h : cs.length % 4 ≠ 0) :
    b64DecodeGo cs = none := by
  match cs with
  | [] => simp at h
  | [a] => rfl
  | [a, b] => rfl
  | [a, b, c] => rfl
  | a :: b :: c :: d :: rest =>
    match rest with
    | [] => simp at h
    | e :: rest =>
      have hr : (e :: rest).length % 4 ≠ 0 := by
        simp only [List.length_cons] at h ⊢
        omega
      have ih := b64Decode_none_of_length_mod (e :: rest) hr
      simp only [b64DecodeGo, ih]
      cases b64Val a <;> cases b64Val b <;> cases b64Val c <;> cases b64Val d <;> rfl

/-- ASCII bytes of a string literal. -/
def strBytes (s : String) : List Nat := s.toList.map Char.toNat

/-- Purpose labels for HKDF key derivation, from crypto/kdf.rs. -/
inductive DerivedKeyPurpose
  | SessionEncryption
  | MessageAuthentication
  | StorageEncryption
deriving DecidableEq, Repr

/-- Stable info strings of the purposes, from crypto/kdf.rs info_bytes. -/
def DerivedKeyPurpose.infoBytes : DerivedKeyPurpose → List Nat
  | .SessionEncryption => strBytes "toss-session-encryption-v1"
  | .MessageAuthentication => strBytes "toss-message-auth-v1"
  | .StorageEncryption => strBytes "toss-storage-encryption-v1"

def DerivedKeyPurpose.idx : DerivedKeyPurpose → Nat
  | .SessionEncryption => 0
  | .MessageAuthentication => 1
  | .StorageEncryption => 2

/-- Abstract model of the external crypto crates used by rust_core: SHA-256
(sha2), HKDF-SHA256 (hkdf, via derive_key in crypto/kdf.rs), X25519
(x25519-dalek), Ed25519 (ed25519-dalek) and AES-256-GCM (aes-gcm).  Only the
contracts the code relies on are assumed: fixed output lengths, agreement of
the two sides of a Diffie-Hellman exchange, signature verification of a
correctly signed message, and AEAD decryption inverting encryption under the
same key, nonce and associated data. -/
structure CryptoModel where
  sha256 : List Nat → List Nat
  hkdf : List Nat → DerivedKeyPurpose → Option (List Nat) → List Nat
  dhPub : Nat → List Nat
  dh : Nat → List Nat → List Nat
  idPub : List Nat → List Nat
  idSign : List Nat → List Nat → List Nat
  idVerify : List Nat → List Nat → List Nat → Bool
  aeadEnc : List Nat → List Nat → List Nat → List Nat → List Nat
  aeadDec : List Nat → List Nat → List Nat → List Nat → Option (List Nat)
  sha256_length : ∀ bs, (sha256 bs).length = 32
  hkdf_length : ∀ i p s, (hkdf i p s).length = 32
  dh_comm : ∀ a b, dh a (dhPub b) = dh b (dhPub a)
  idVerify_idSign : ∀ sk m, idVerify (idPub sk) m (idSign sk m) = true
  aeadEnc_length : ∀ k n a p, (aeadEnc k n a p).length = p.length + 16
  aeadDec_enc : ∀ k n a p, aeadDec k n a (aeadEnc k n a p) = some p

def toyTag (k n a p : List Nat) : List Nat :=
  List.replicate 16 ((k.sum + n.sum + a.sum + p.sum) % 256)

/-- Small executable instance of the crypto contracts, used to run the
embedded code on concrete inputs. -/
def toyCrypto : CryptoModel where
  sha256 bs := (bs.sum % 256) :: List.replicate 31 0
  hkdf i p s := ((i.sum + (s.getD []).sum + p.idx) % 256) :: List.replicate 31 1
  dhPub n := [n]
  dh s p := ((s * p.headD 0) % 256) :: List.replicate 31 2
  idPub sk := sk
  idSign sk m := sk ++ m
  idVerify pk m sg := decide (sg = pk ++ m)
  aeadEnc k n a p := p ++ toyTag k n a p
  aeadDec k n a c :=
    if c.length < 16 then none
    else
      let p := c.take (c.length - 16)
      if c.drop (c.length - 16) = toyTag k n a p then some p else none
  sha256_length := by intro bs; simp
  hkdf_length := by intro i p s; simp
  dh_comm := by intro a b; simp [Nat.mul_comm]
  idVerify_idSign := by intro sk m; simp
  aeadEnc_length := by intro k n a p; simp [toyTag]
  aeadDec_enc := by
    intro k n a p
    have htl : (toyTag k n a p).length = 16 := by simp [toyTag]
    have htake : (p ++ toyTag k n a p).take p.length = p :=
      List.take_left p (toyTag k n a p)
    have hdrop : (p ++ toyTag k n a p).drop p.length = toyTag k n a p :=
      List.drop_left p (toyTag k n a p)
    simp [htl, htake, hdrop]

/-- Encrypted AEAD message, from crypto/symmetric.rs. -/
structure EncryptedMessage where
  nonce : List Nat
  ciphertext : List Nat
deriving DecidableEq, Repr

/-- Serialization to bytes, from EncryptedMessage::to_bytes. -/
def EncryptedMessage.toBytes (m : EncryptedMessage) : List Nat :=
  m.nonce ++ m.ciphertext

/-- Embedding of crypto/symmetric.rs encrypt.  The randomly generated nonce
is passed in explicitly. -/
def encrypt (C : CryptoModel) (key pt aad nonce : List Nat) : EncryptedMessage :=
  { nonce := nonce, ciphertext := C.aeadEnc key nonce aad pt }

theorem encrypt_toBytes_length (C : CryptoModel) (key pt aad nonce : List Nat) :
    (encrypt C key pt aad nonce).toBytes.length = nonce.length + pt.length + 16 := by
  simp [encrypt, EncryptedMessage.toBytes, C.aeadEnc_length]
  omega

/-- Platform keystore contents: key name to stored bytes. -/
def Keystore := List (String × List Nat)

def ksRetrieve (ks : Keystore) (k : String) : Option (List Nat) :=
  (ks.find? (fun e => e.1 == k)).map (·.2)

def ksStore (ks : Keystore) (k : String) (v : List Nat) : Keystore :=
  (k, v) :: ks.filter (fun e => ¬ (e.1 == k))

def storageEncryptionKeyName : String := "storage_encryption_key"

/-- Embedding of storage/secure_storage.rs get_or_create_storage_encryption_key.
The freshly generated random key is passed in explicitly; it is used only when
the keystore does not already hold a 32-byte key. -/
def get_or_create_storage_encryption_key (ks : Keystore) (fresh : List Nat) :
    List Nat × Keystore :=
  match ksRetrieve ks storageEncryptionKeyName with
  | some bytes =>
      if bytes.length = 32 then (bytes, ks)
      else (fresh, ksStore ks storageEncryptionKeyName fresh)
  | none => (fresh, ksStore ks storageEncryptionKeyName fresh)

/-- Embedding of storage/secure_storage.rs encrypt_for_storage: AES-GCM under
the keystore-held storage key with empty associated data, output
nonce (12 bytes) followed by the ciphertext. -/
def encrypt_for_storage (C : CryptoModel) (ks : Keystore) (fresh nonce pt : List Nat) :
    List Nat × Keystore :=
  let (key, ks2) := get_or_create_storage_encryption_key ks fresh
  (nonce ++ C.aeadEnc key nonce [] pt, ks2)

/-- Embedding of storage/secure_storage.rs decrypt_from_storage. -/
def decrypt_from_storage (C : CryptoModel) (ks : Keystore) (fresh encd : List Nat) :
    Option (List Nat) :=
  if encd.length < 12 then none
  else
    let (key, _) := get_or_create_storage_encryption_key ks fresh
    C.aeadDec key (encd.take 12) [] (encd.drop 12)


/-- Device id of an identity, from crypto/identity.rs: the full SHA-256 hash
of the identity public key. -/
def identityDeviceId (C : CryptoModel) (idPubKey : List Nat) : List Nat :=
  C.sha256 idPubKey

/-- Embedding of DeviceIdentity::device_id_hex: hex encoding of the full
32-byte device id. -/
def deviceIdHex (C : CryptoModel) (idPubKey : List Nat) : List Char :=
  hexEncode (identityDeviceId C idPubKey)

/-- Device id derived for a peer at pair time, from api/mod.rs
complete_pairing_qr, complete_pairing_code and complete_manual_pairing:
hex encoding of the first 16 bytes of SHA-256 of the peer public key. -/
def pairDeviceId (C : CryptoModel) (peerPub : List Nat) : List Char :=
  hexEncode ((C.sha256 peerPub).take 16)

def sessionKeySalt : List Nat := strBytes "toss-session-key-v1"
def clipboardHistorySalt : List Nat := strBytes "toss-clipboard-history-v1"

/-- Per-row associated data binding a session key blob to its device row. -/
def sessionAad (id : List Char) : List Nat :=
  strBytes "session:" ++ id.map Char.toNat

/-- Per-row associated data binding a history blob to its item row. -/
def historyAad (id : List Char) : List Nat :=
  strBytes "history:" ++ id.map Char.toNat

/-- Paired device record, from storage/device_storage.rs StoredDevice. -/
structure StoredDevice where
  id : List Char
  name : List Char
  public_key : List Nat
  session_key : Option (List Nat)
  last_seen : Option Nat
  created_at : Nat
  is_active : Bool
  platform : Option (List Char)
deriving DecidableEq, Repr

/-- Embedding of the device record built by api/mod.rs complete_pairing_qr
(the construction in complete_pairing_code and complete_manual_pairing is
identical): the peer id is the 16-byte-prefix hash, and the session key is
AEAD-encrypted under a key derived by HKDF from the own device id with
purpose StorageEncryption and salt toss-session-key-v1, bound to the row by
the session aad. -/
def completePairingStoredDevice (C : CryptoModel) (ownDeviceId : List Nat)
    (peerPub sessionKey nonce : List Nat) (name : List Char) (now : Nat)
    (platform : List Char) : StoredDevice :=
  let id := pairDeviceId C peerPub
  let storageKey := C.hkdf ownDeviceId .StorageEncryption (some sessionKeySalt)
  { id := id
    name := name
    public_key := peerPub
    session_key := some (encrypt C storageKey sessionKey (sessionAad id) nonce).toBytes
    last_seen := none
    created_at := now
    is_active := true
    platform := some platform }

/-- Row transformation applied by DeviceStorage::store_device: a present
session key blob is additionally wrapped by encrypt_for_storage before the
row is written. -/
def atRestRow (C : CryptoModel) (ks : Keystore) (fresh nonce : List Nat)
    (d : StoredDevice) : StoredDevice :=
  match d.session_key with
  | some key => { d with session_key := some (encrypt_for_storage C ks fresh nonce key).1 }
  | none => d

def upsertDevice (db : List StoredDevice) (d : StoredDevice) : List StoredDevice :=
  db.filter (fun r => ¬ (r.id == d.id)) ++ [d]

/-- Embedding of DeviceStorage::store_device (INSERT OR REPLACE keyed by id,
after wrapping the session key for storage). -/
def store_device (C : CryptoModel) (ks : Keystore) (fresh nonce : List Nat)
    (db : List StoredDevice) (d : StoredDevice) : List StoredDevice :=
  upsertDevice db (atRestRow C ks fresh nonce d)

/-- Embedding of DeviceStorage::get_device: row lookup by exact id, with the
stored session key blob passed through decrypt_from_storage (failures give
none). -/
def get_device (C : CryptoModel) (ks : Keystore) (fresh : List Nat)
    (db : List StoredDevice) (id : List Char) : Option StoredDevice :=
  (db.find? (fun r => r.id == id)).map fun r =>
    { r with session_key := r.session_key.bind (decrypt_from_storage C ks fresh) }

/-- Embedding of the get_session_key closure wired by api/mod.rs
start_network: look the device up by the hex encoding of the 32-byte device
id and return the stored session key blob only when it is exactly 32 bytes
long. -/
def sessionKeyCallback (C : CryptoModel) (ks : Keystore) (fresh : List Nat)
    (db : List StoredDevice) (deviceId32 : List Nat) : Option (List Nat) :=
  match get_device C ks fresh db (hexEncode deviceId32) with
  | some d =>
      match d.session_key with
      | some bytes => if bytes.length = 32 then some bytes else none
      | none => none
  | none => none

/-- Key under which api/mod.rs send_clipboard encrypts a history payload:
derive_key of the own device id with purpose StorageEncryption and salt
toss-clipboard-history-v1.  The platform keystore plays no part in it. -/
def historyStorageKey (C : CryptoModel) (ownDeviceId : List Nat) : List Nat :=
  C.hkdf ownDeviceId .StorageEncryption (some clipboardHistorySalt)

/-- Embedding of the history-encryption step of api/mod.rs send_clipboard:
returns the AEAD key used together with the blob that
HistoryStorage::store_item persists unchanged.  The ambient platform
keystore is passed in to record that, although the code could consult it,
this path never does. -/
def sendClipboardHistoryEnc (C : CryptoModel) (_ks : Keystore)
    (ownDeviceId : List Nat) (itemId : List Char) (content nonce : List Nat) :
    List Nat × List Nat :=
  let key := historyStorageKey C ownDeviceId
  (key, (encrypt C key content (historyAad itemId) nonce).toBytes)

/-- Client-side rate limit state: api/mod.rs TossCore.last_sync_time. -/
structure CoreSyncState where
  last_sync_time : Nat
deriving DecidableEq, Repr

/-- Embedding of the last_sync_time initialization in init_toss. -/
def initLastSyncTime (now : Nat) : CoreSyncState := { last_sync_time := now }

/-- Embedding of the rate-limit check at the top of api/mod.rs
send_clipboard.  The source reads last_sync_time and rejects when fewer than
100 ms have elapsed, but nothing in the source ever writes last_sync_time
after init_toss, so the state is returned unchanged on success. -/
def sendClipboardRateCheck (st : CoreSyncState) (now : Nat) :
    Except String CoreSyncState :=
  if now - st.last_sync_time < 100 then .error "Rate limit: please wait"
  else .ok st


/-- Key rotation reasons, from protocol/message.rs. -/
inductive KeyRotationReason
  | Scheduled
  | MessageCountExceeded
  | SecurityConcern
deriving DecidableEq, Repr

/-- KeyRotation message body, from protocol/message.rs. -/
structure KeyRotation where
  new_public_key : List Nat
  signature : List Nat
  reason : KeyRotationReason
deriving DecidableEq, Repr

/-- Per-peer ephemeral key state, from network/mod.rs PeerEphemeralKey. -/
structure PeerEphemeralKey where
  public_key : List Nat
  peer_public_key : Option (List Nat)
deriving DecidableEq, Repr

/-- Per-peer connection state relevant to rotation: the installed session
key, the rotation tracker message count (reset_session_tracker sets it to
zero) and the ephemeral key entry of the peer. -/
structure PeerConnState where
  session_key : List Nat
  message_count : Nat
  ephemeral : PeerEphemeralKey
deriving DecidableEq, Repr

/-- Embedding of NetworkManager::rotate_session_key.  The fresh ephemeral
secret aNew stands for EphemeralKeyPair::generate.  The source sends the
produced KeyRotation message to the peer under the old session key and then
installs the new key derived from the fresh secret and the stored (old)
ephemeral public key of the peer; the stored peer_public_key entry is left
unchanged. -/
def rotate_session_key (C : CryptoModel) (identitySecret : List Nat) (aNew : Nat)
    (st : PeerConnState) : Except String (PeerConnState × KeyRotation) :=
  match st.ephemeral.peer_public_key with
  | none => .error "No peer ephemeral key"
  | some peerPub =>
      let newPub := C.dhPub aNew
      let sharedSecret := C.dh aNew peerPub
      let newSessionKey := C.hkdf sharedSecret .SessionEncryption none
      let rotation : KeyRotation :=
        { new_public_key := newPub
          signature := C.idSign identitySecret newPub
          reason := .Scheduled }
      .ok ({ session_key := newSessionKey
             message_count := 0
             ephemeral := { public_key := newPub, peer_public_key := some peerPub } },
           rotation)

/-- Embedding of NetworkManager::handle_key_rotation.  The fresh ephemeral
secret bNew stands for the keypair the receiver generates, and the returned
list holds the messages the handler sends back to the peer.  The signature
check follows the source exactly: it fails only when a lookup function is
available and yields a stored identity key under which the signature does
not verify; a missing function or missing key is allowed for backward
compatibility. -/
def handle_key_rotation (C : CryptoModel)
    (getPk : Option (List Nat → Option (List Nat))) (deviceId : List Nat)
    (bNew : Nat) (rot : KeyRotation) (_st : PeerConnState) :
    Except String (PeerConnState × List KeyRotation) :=
  let verified : Bool :=
    match getPk with
    | some f =>
        match f deviceId with
        | some peerIdentityKey => C.idVerify peerIdentityKey rot.new_public_key rot.signature
        | none => true
    | none => true
  if verified then
    let newPub := C.dhPub bNew
    let sharedSecret := C.dh bNew rot.new_public_key
    let newSessionKey := C.hkdf sharedSecret .SessionEncryption none
    .ok ({ session_key := newSessionKey
           message_count := 0
           ephemeral := { public_key := newPub, peer_public_key := some rot.new_public_key } },
         [])
  else .error "Key rotation signature verification failed"

/-- Network errors, restricted to the variants NetworkManager::broadcast
produces. -/
inductive NetworkError
  | ConnectionFailed (msg : String)
  | PeerNotFound (id : String)
deriving DecidableEq, Repr

/-- Environment of one NetworkManager::broadcast call: the per-peer outcome
of send_to_peer, presence of the relay client, the serialization outcome of
the message, the per-peer relay outcome, and the optional session key
callback.  The nonce stands for the randomness of the relay-path
encryption. -/
structure BroadcastEnv where
  directSend : List Nat → Except String Unit
  relayAvailable : Bool
  serialized : Option (List Nat)
  relaySend : List Nat → List Nat → Except String Unit
  getSessionKey : Option (List Nat → Option (List Nat))
  nonce : List Nat

/-- Payload that NetworkManager::broadcast hands to the relay for one
device: marker byte 0x01 followed by the AEAD encryption of the serialized
message (with the device id as associated data) when a session key is
available, otherwise marker byte 0x00 followed by the serialized message in
plaintext. -/
def relayFallbackPayload (C : CryptoModel)
    (getKey : Option (List Nat → Option (List Nat))) (deviceId ser nonce : List Nat) :
    List Nat :=
  match getKey with
  | some f =>
      match f deviceId with
      | some sessionKey => 0x01 :: (encrypt C sessionKey ser deviceId nonce).toBytes
      | none => 0x00 :: ser
  | none => 0x00 :: ser

/-- One iteration of the broadcast loop over the device list, folding the
pair (success count, last direct-send error message). -/
def broadcastStep (C : CryptoModel) (env : BroadcastEnv)
    (acc : Nat × Option String) (d : List Nat) : Nat × Option String :=
  match env.directSend d with
  | .ok _ => (acc.1 + 1, acc.2)
  | .error e =>
      if env.relayAvailable then
        match env.serialized with
        | some ser =>
            match env.relaySend d (relayFallbackPayload C env.getSessionKey d ser env.nonce) with
            | .ok _ => (acc.1 + 1, some e)
            | .error _ => (acc.1, some e)
        | none => (acc.1, some e)
      else (acc.1, some e)

/-- Embedding of NetworkManager::broadcast over the list of known peer
device ids: an empty peer set returns ok, otherwise the loop counts
successes (direct or relay) and keeps the last direct-send error, and the
call fails with ConnectionFailed of that error only when no peer
accepted. -/
def broadcast (C : CryptoModel) (env : BroadcastEnv) (deviceIds : List (List Nat)) :
    Except NetworkError Unit :=
  if deviceIds.isEmpty then .ok ()
  else
    if (deviceIds.foldl (broadcastStep C env) (0, none)).1 > 0 then .ok ()
    else
      match (deviceIds.foldl (broadcastStep C env) (0, none)).2 with
      | some e => .error (.ConnectionFailed e)
      | none => .ok ()

/-- Whether one peer accepts the message during broadcast, by direct send or
by relay fallback. -/
def peerAccepted (C : CryptoModel) (env : BroadcastEnv) (d : List Nat) : Bool :=
  match env.directSend d with
  | .ok _ => true
  | .error _ =>
      env.relayAvailable &&
        match env.serialized with
        | some ser =>
            match env.relaySend d (relayFallbackPayload C env.getSessionKey d ser env.nonce) with
            | .ok _ => true
            | .error _ => false
        | none => false

/-- Whether the direct send to one peer fails, and with which message. -/
def directErrMsg (env : BroadcastEnv) (d : List Nat) : Option String :=
  match env.directSend d with
  | .ok _ => none
  | .error e => some e


/-- Typed errors of the relay server, from relay_server/src/error.rs. -/
inductive ApiError
  | BadRequest (msg : String)
  | Unauthorized (msg : String)
  | Forbidden (msg : String)
  | NotFound (msg : String)
  | RateLimited
  | Internal (msg : String)
  | Database (msg : String)
deriving DecidableEq, Repr

/-- HTTP status mapping of ApiError, from the IntoResponse instance in
relay_server/src/error.rs. -/
def ApiError.status : ApiError → Nat
  | .BadRequest _ => 400
  | .Unauthorized _ => 401
  | .Forbidden _ => 403
  | .NotFound _ => 404
  | .RateLimited => 429
  | .Internal _ => 500
  | .Database _ => 500

/-- Request body of POST /api/v1/pairing/register, from
relay_server/src/api/handlers.rs RegisterPairingRequest. -/
structure RegisterPairingReq where
  code : List Char
  public_key : List Char
  device_name : List Char
  expires_in_secs : Option Nat
deriving DecidableEq, Repr

structure RegisterPairingResp where
  code : List Char
  expires_at : Nat
deriving DecidableEq, Repr

/-- Pairing rendezvous row, from the pairing_sessions table of
relay_server/src/db/mod.rs. -/
structure PairingRow where
  code : List Char
  public_key : List Nat
  device_name : List Char
  expires_at : Nat
  created_at : Nat
deriving DecidableEq, Repr

def upsertPairing (db : List PairingRow) (row : PairingRow) : List PairingRow :=
  db.filter (fun r => ¬ (r.code == row.code)) ++ [row]

/-- Embedding of the register_pairing handler in
relay_server/src/api/handlers.rs: validate the 6-digit code and the decoded
32-byte public key, take the requested expires_in_secs with default 300, and
upsert the row with expires_at = now + expires_in. -/
def register_pairing (now : Nat) (db : List PairingRow) (req : RegisterPairingReq) :
    Except ApiError (List PairingRow × RegisterPairingResp) :=
  if ¬ (req.code.length = 6 ∧ req.code.all Char.isDigit) then
    .error (.BadRequest "Pairing code must be 6 digits")
  else
    match b64Decode req.public_key with
    | none => .error (.BadRequest "Invalid public key encoding")
    | some pk =>
        if ¬ (pk.length = 32) then .error (.BadRequest "Public key must be 32 bytes")
        else
          let expiresIn := req.expires_in_secs.getD 300
          let expiresAt := now + expiresIn
          let row : PairingRow :=
            { code := req.code, public_key := pk, device_name := req.device_name,
              expires_at := expiresAt, created_at := now }
          .ok (upsertPairing db row, { code := req.code, expires_at := expiresAt })

/-- State of the relay server that the relay_message handler touches: the
registered device ids, the predicate deciding whether a live WebSocket push
to a device succeeds, and the persistent message queue. -/
structure RelayState where
  devices : List (List Char)
  connectedPush : List Char → Bool
  queue : List (List Char × List Char × List Char)

/-- Embedding of the relay_message handler in
relay_server/src/api/handlers.rs: unknown target gives NotFound, otherwise
the message is pushed to the live connection or queued, and the handler
answers 202 in both cases.  No rate limiting occurs anywhere in the
handler. -/
def relay_message (st : RelayState) (authDevice target payload : List Char) :
    Except ApiError (Nat × RelayState) :=
  if target ∈ st.devices then
    if st.connectedPush target then .ok (202, st)
    else .ok (202, { st with queue := st.queue ++ [(authDevice, target, payload)] })
  else .error (.NotFound "Target device not found")

/-- HTTP status of a relay_message call. -/
def relayStatus (r : Except ApiError (Nat × RelayState)) : Nat :=
  match r with
  | .ok (s, _) => s
  | .error e => e.status

/-- Statuses the relay returns for a whole sequence of relay_message
requests (from, target, payload), threading the queue state. -/
def relayBatchStatuses (st : RelayState)
    (reqs : List (List Char × List Char × List Char)) : List Nat :=
  (reqs.foldl
    (fun (acc : List Nat × RelayState) r =>
      match relay_message acc.2 r.1 r.2.1 r.2.2 with
      | .ok (s, st2) => (acc.1 ++ [s], st2)
      | .error e => (acc.1 ++ [e.status], acc.2))
    ([], st)).1

/-- Request body of POST /api/v1/register, from
relay_server/src/api/handlers.rs RegisterRequest. -/
structure RegisterReq where
  device_id : List Char
  public_key : List Char
  device_name : List Char
  timestamp : Nat
  signature : List Char
deriving DecidableEq, Repr

/-- Bytes of the string the registration signature covers. -/
def registerMsgBytes (id : List Char) (ts : Nat) : List Nat :=
  strBytes "register:" ++ id.map Char.toNat ++ strBytes ":" ++ strBytes (toString ts)

/-- Embedding of verify_signature in relay_server/src/auth/mod.rs: length
checks surface as BadRequest, then Ed25519 verification. -/
def verify_signature (C : CryptoModel) (pk msg sig : List Nat) :
    Except ApiError Bool :=
  if ¬ (pk.length = 32) then .error (.BadRequest "Invalid public key length")
  else if ¬ (sig.length = 64) then .error (.BadRequest "Invalid signature length")
  else .ok (C.idVerify pk msg sig)

/-- Embedding of the register_device handler in
relay_server/src/api/handlers.rs: decode the key and signature, check the
timestamp freshness window of 300 seconds, verify the signature over
register:<device_id>:<timestamp>, then upsert the device and answer 200 with
a token.  Like the other handlers it never produces RateLimited. -/
def register_device (C : CryptoModel) (now : Nat) (devices : List (List Char))
    (req : RegisterReq) : Except ApiError (List (List Char) × Nat) :=
  match b64Decode req.public_key with
  | none => .error (.BadRequest "Invalid public key encoding")
  | some pk =>
      match b64Decode req.signature with
      | none => .error (.BadRequest "Invalid signature encoding")
      | some sig =>
          if 300 < Nat.dist now req.timestamp then
            .error (.BadRequest "Timestamp too old")
          else
            match verify_signature C pk (registerMsgBytes req.device_id req.timestamp) sig with
            | .error e => .error e
            | .ok false => .error (.Unauthorized "Invalid signature")
            | .ok true =>
                .ok ((devices.filter (fun d => ¬ (d == req.device_id))) ++ [req.device_id], 200)

/-- HTTP status of a register_device call. -/
def registerStatus (r : Except ApiError (List (List Char) × Nat)) : Nat :=
  match r with
  | .ok (_, s) => s
  | .error e => e.status

/-- HTTP status of a register_pairing call. -/
def registerPairingStatus (r : Except ApiError (List PairingRow × RegisterPairingResp)) : Nat :=
  match r with
  | .ok _ => 200
  | .error e => e.status


instance {ε α : Type} [DecidableEq ε] [DecidableEq α] : DecidableEq (Except ε α)
  | .ok a, .ok b =>
      if h : a = b then .isTrue (by rw [h])
      else .isFalse (fun hh => by cases hh; exact h rfl)
  | .ok _, .error _ => .isFalse (fun hh => by cases hh)
  | .error _, .ok _ => .isFalse (fun hh => by cases hh)
  | .error e, .error f =>
      if h : e = f then .isTrue (by rw [h])
      else .isFalse (fun hh => by cases hh; exact h rfl)

/-- Value of the pk TXT property published by
PairingCoordinator::start_advertisement: the base64 encoding of the public
key truncated to at most 43 characters. -/
def advertisedPk (pk : List Nat) : List Char :=
  (b64Encode pk).take (min 43 (b64Encode pk).length)

/-- Public key extraction of PairingCoordinator::find_via_mdns: standard
padded base64 decode of the pk property, accepted only at exactly 32
bytes. -/
def mdnsParsedKey (s : List Char) : Option (List Nat) :=
  (b64Decode s).bind fun bs => if bs.length = 32 then some bs else none

theorem pairDeviceId_length (C : CryptoModel) (pk : List Nat) :
    (pairDeviceId C pk).length = 32 := by
  have h32 := C.sha256_length pk
  simp [pairDeviceId, hexEncode_length, List.length_take, h32]

theorem deviceIdHex_length (C : CryptoModel) (pk : List Nat) :
    (deviceIdHex C pk).length = 64 := by
  have h32 := C.sha256_length pk
  simp [deviceIdHex, identityDeviceId, hexEncode_length, h32]

/-- Concrete rotation scenario: identity secret of the initiator. -/
def rotIdentitySecret : List Nat := [1]

/-- Concrete rotation scenario: the 32-byte device id of the initiator as
seen by the receiver. -/
def rotDeviceId : List Nat := List.replicate 32 9

/-- Identity-key lookup of the receiver, resolving the initiator device id
to its identity public key. -/
def rotLookup : List Nat → Option (List Nat) :=
  fun d => if d = rotDeviceId then some (toyCrypto.idPub rotIdentitySecret) else none

/-- Initiator connection state before rotation: the stored ephemeral public
key of the peer is the OLD receiver public key dhPub 3. -/
def rotStateA : PeerConnState :=
  { session_key := List.replicate 32 0
    message_count := 1000
    ephemeral := { public_key := [7], peer_public_key := some (toyCrypto.dhPub 3) } }

/-- Receiver connection state before rotation. -/
def rotStateB : PeerConnState :=
  { session_key := List.replicate 32 0
    message_count := 1000
    ephemeral := { public_key := toyCrypto.dhPub 3, peer_public_key := some [7] } }

/-- KeyRotation message the initiator sends for fresh secret 2. -/
def rotMsg : KeyRotation :=
  { new_public_key := toyCrypto.dhPub 2
    signature := toyCrypto.idSign rotIdentitySecret (toyCrypto.dhPub 2)
    reason := .Scheduled }

/-- State the initiator installs: key from its fresh secret 2 and the OLD
receiver ephemeral public key dhPub 3. -/
def rotStateAafter : PeerConnState :=
  { session_key := toyCrypto.hkdf (toyCrypto.dh 2 (toyCrypto.dhPub 3)) .SessionEncryption none
    message_count := 0
    ephemeral := { public_key := toyCrypto.dhPub 2, peer_public_key := some (toyCrypto.dhPub 3) } }

/-- State the receiver installs: key from its own fresh secret 5 and the
initiator NEW public key dhPub 2. -/
def rotStateBafter : PeerConnState :=
  { session_key := toyCrypto.hkdf (toyCrypto.dh 5 (toyCrypto.dhPub 2)) .SessionEncryption none
    message_count := 0
    ephemeral := { public_key := toyCrypto.dhPub 5, peer_public_key := some (toyCrypto.dhPub 2) } }

/-- C1: after a key-rotation exchange the two endpoints do NOT hold the same
new session key.  On a concrete run of the embedded code the initiator
installs HKDF of dh(fresh secret 2, old peer public dhPub 3) in
rotate_session_key while the receiver installs HKDF of dh(its own fresh
secret 5, the initiator new public dhPub 2) in handle_key_rotation, with no
reply sent, and the two installed keys differ. -/
theorem rotation_installed_keys_disagree :
    rotate_session_key toyCrypto rotIdentitySecret 2 rotStateA = .ok (rotStateAafter, rotMsg)
    ∧ handle_key_rotation toyCrypto (some rotLookup) rotDeviceId 5 rotMsg rotStateB
        = .ok (rotStateBafter, [])
    ∧ rotStateAafter.session_key ≠ rotStateBafter.session_key := by
  refine ⟨by decide, by decide, by decide⟩

/-- C2 counterexample: on a concrete incoming KeyRotation whose signature
verifies against the stored identity key, the embedded handle_key_rotation
returns an empty list of outgoing messages: the receiver sends no reply
KeyRotation. -/
theorem handle_key_rotation_sends_no_reply :
    rotLookup rotDeviceId = some (toyCrypto.idPub rotIdentitySecret)
    ∧ toyCrypto.idVerify (toyCrypto.idPub rotIdentitySecret) rotMsg.new_public_key
        rotMsg.signature = true
    ∧ (handle_key_rotation toyCrypto (some rotLookup) rotDeviceId 5 rotMsg rotStateB).map
        (fun p => p.2) = .ok ([] : List KeyRotation) := by
  refine ⟨by decide, by decide, by decide⟩

/-- C2 (amended): when the incoming KeyRotation signature verifies against
the stored identity public key, handle_key_rotation generates its own fresh
ephemeral keypair, derives the new session key via HKDF from the fresh
secret and the sender new public key, installs it and resets the session
tracker — but it sends no reply KeyRotation to the sender. -/
theorem handle_key_rotation_success_installs_key (C : CryptoModel)
    (getPk : List Nat → Option (List Nat)) (deviceId peerIdentityKey : List Nat)
    (bNew : Nat) (rot : KeyRotation) (st : PeerConnState)
    (hfind : getPk deviceId = some peerIdentityKey)
    (hver : C.idVerify peerIdentityKey rot.new_public_key rot.signature = true) :
    handle_key_rotation C (some getPk) deviceId bNew rot st
      = .ok ({ session_key := C.hkdf (C.dh bNew rot.new_public_key) .SessionEncryption none
               message_count := 0
               ephemeral := { public_key := C.dhPub bNew
                              peer_public_key := some rot.new_public_key } }, []) := by
  simp [handle_key_rotation, hfind, hver]

theorem handle_key_rotation_success_installs_key_witness :
    handle_key_rotation toyCrypto (some rotLookup) rotDeviceId 7 rotMsg rotStateB
      = .ok ({ session_key :=
                 toyCrypto.hkdf (toyCrypto.dh 7 rotMsg.new_public_key) .SessionEncryption none
               message_count := 0
               ephemeral := { public_key := toyCrypto.dhPub 7
                              peer_public_key := some rotMsg.new_public_key } }, []) :=
  handle_key_rotation_success_installs_key toyCrypto rotLookup rotDeviceId
    (toyCrypto.idPub rotIdentitySecret) 7 rotMsg rotStateB (by decide) (by decide)

/-- C4: the id a device reports for itself — device_id_hex in
crypto/identity.rs, the hex encoding of the FULL 32-byte SHA-256 of its
public key, 64 characters — never equals the id its peer derives from the
same public key at pair time in api/mod.rs — hex of the first 16 hash bytes,
32 characters.  The pair-time id is exactly the 32-character prefix of the
self-reported id. -/
theorem device_id_self_vs_pair_mismatch (C : CryptoModel) (pk : List Nat) :
    (deviceIdHex C pk).length = 64
    ∧ (pairDeviceId C pk).length = 32
    ∧ pairDeviceId C pk = (deviceIdHex C pk).take 32
    ∧ deviceIdHex C pk ≠ pairDeviceId C pk := by
  have h64 := deviceIdHex_length C pk
  have h32 := pairDeviceId_length C pk
  refine ⟨h64, h32, ?_, ?_⟩
  · simpa [pairDeviceId, deviceIdHex, identityDeviceId] using
      hexEncode_take (C.sha256 pk) 16
  · intro he
    rw [he] at h64
    omega

/-- C8: the send_clipboard rate limiter measures elapsed time from init_toss
because last_sync_time is never updated afterwards: with init at 0 ms, a
send at 50 ms is rejected, a send at 1000 ms passes and leaves the state
unchanged, and a second send at 1050 ms — only 50 ms after the previous
passing send — also passes, contradicting the minimum 100 ms gap between
consecutive sends. -/
theorem send_rate_limit_measured_from_init :
    sendClipboardRateCheck (initLastSyncTime 0) 50 = .error "Rate limit: please wait"
    ∧ sendClipboardRateCheck (initLastSyncTime 0) 1000 = .ok (initLastSyncTime 0)
    ∧ sendClipboardRateCheck (initLastSyncTime 0) 1050 = .ok (initLastSyncTime 0) := by
  refine ⟨by decide, by decide, by decide⟩

/-- C10: for every 32-byte public key the advertised pk TXT value is the
43-character prefix of the 44-character base64 encoding, the padded decoder
used by find_via_mdns rejects it, and the finder therefore never obtains a
parseable 32-byte public key from the advertisement. -/
theorem mdns_pk_truncation_unparseable (pk : List Nat) (hlen : pk.length = 32) :
    (b64Encode pk).length = 44
    ∧ advertisedPk pk = (b64Encode pk).take 43
    ∧ b64Decode (advertisedPk pk) = none
    ∧ mdnsParsedKey (advertisedPk pk) = none := by
  have h44 : (b64Encode pk).length = 44 := by rw [b64Encode_length, hlen]
  have htk : advertisedPk pk = (b64Encode pk).take 43 := by
    simp [advertisedPk, h44]
  have h43 : ((b64Encode pk).take 43).length = 43 := by
    simp [List.length_take, h44]
  have hdec : b64Decode ((b64Encode pk).take 43) = none := by
    apply b64Decode_none_of_length_mod
    rw [h43]
    decide
  refine ⟨h44, htk, htk ▸ hdec, ?_⟩
  simp [mdnsParsedKey, htk, hdec]

theorem mdns_pk_truncation_unparseable_witness :
    (b64Encode (List.replicate 32 0)).length = 44
    ∧ advertisedPk (List.replicate 32 0) = (b64Encode (List.replicate 32 0)).take 43
    ∧ b64Decode (advertisedPk (List.replicate 32 0)) = none
    ∧ mdnsParsedKey (advertisedPk (List.replicate 32 0)) = none :=
  mdns_pk_truncation_unparseable (List.replicate 32 0) (by decide)


/-- Concrete keystore holding a 32-byte storage encryption key. -/
def c3Keystore : Keystore := [(storageEncryptionKeyName, List.replicate 32 5)]

/-- Concrete own device id (the SHA-256 hash of a concrete identity public
key). -/
def c3OwnDeviceId : List Nat := toyCrypto.sha256 [4]

/-- C3: the AEAD key api/mod.rs send_clipboard uses to encrypt a history
item is derived by HKDF from the own device id — itself the SHA-256 hash of
the identity public key, a value computable without any keystore access —
and it is not the keystore-held storage key: the key is identical for every
keystore content, equals historyStorageKey, and on a concrete run differs
from the key get_or_create_storage_encryption_key retrieves from the
keystore. -/
theorem history_key_not_keystore_bound :
    (∀ (C : CryptoModel) (ks ks2 : Keystore) (ownDeviceId : List Nat)
        (itemId : List Char) (content nonce : List Nat),
        (sendClipboardHistoryEnc C ks ownDeviceId itemId content nonce).1
          = (sendClipboardHistoryEnc C ks2 ownDeviceId itemId content nonce).1
        ∧ (sendClipboardHistoryEnc C ks ownDeviceId itemId content nonce).1
          = historyStorageKey C ownDeviceId)
    ∧ (sendClipboardHistoryEnc toyCrypto c3Keystore c3OwnDeviceId [] [] []).1
        ≠ (get_or_create_storage_encryption_key c3Keystore (List.replicate 32 6)).1 := by
  refine ⟨fun C ks ks2 ownDeviceId itemId content nonce => ⟨rfl, rfl⟩, by decide⟩

/-- Base64 encoding of the all-zero 32-byte public key. -/
def c6ZeroKeyB64 : List Char := b64Encode (List.replicate 32 0)

/-- Registration request asking for a 100000-second rendezvous lifetime. -/
def c6BigReq : RegisterPairingReq :=
  { code := "482019".toList
    public_key := c6ZeroKeyB64
    device_name := "Device A".toList
    expires_in_secs := some 100000 }

/-- C6 counterexample: a pairing registration requesting
expires_in_secs = 100000 at time 0 is accepted unmodified — neither rejected
nor capped — and the stored and returned expiry is 100000, far beyond the
300-second bound the claim states. -/
theorem register_pairing_accepts_large_ttl :
    register_pairing 0 [] c6BigReq
      = .ok ([{ code := "482019".toList
                public_key := List.replicate 32 0
                device_name := "Device A".toList
                expires_at := 100000
                created_at := 0 }],
             { code := "482019".toList, expires_at := 100000 })
    ∧ 0 + 300 < 100000 := by
  refine ⟨by decide, by decide⟩

/-- C6 (amended): for every accepted pairing registration the stored and
returned expiry equals the registration time plus the requested
expires_in_secs, with 300 only as the default for an absent field; the
handler validates only the code format and the key length and applies no
cap, so the 300-second bound holds exactly when the client requests at most
300. -/
theorem register_pairing_expiry (now : Nat) (db : List PairingRow)
    (req : RegisterPairingReq) (db2 : List PairingRow) (resp : RegisterPairingResp)
    (h : register_pairing now db req = .ok (db2, resp)) :
    resp.expires_at = now + req.expires_in_secs.getD 300
    ∧ (∃ row ∈ db2, row.code = req.code
        ∧ row.expires_at = now + req.expires_in_secs.getD 300
        ∧ row.created_at = now)
    ∧ (req.expires_in_secs.getD 300 ≤ 300 → resp.expires_at ≤ now + 300) := by
  unfold register_pairing at h
  split at h
  · cases h
  · split at h
    · cases h
    · next pk _ =>
      split at h
      · cases h
      · rw [Except.ok.injEq, Prod.mk.injEq] at h
        obtain ⟨hdb, hresp⟩ := h
        subst hdb
        subst hresp
        refine ⟨rfl,
          ⟨{ code := req.code, public_key := pk, device_name := req.device_name,
             expires_at := now + req.expires_in_secs.getD 300, created_at := now },
           ?_, rfl, rfl, rfl⟩, ?_⟩
        · exact List.mem_append.mpr (Or.inr (List.mem_singleton.mpr rfl))
        · intro hle
          show now + req.expires_in_secs.getD 300 ≤ now + 300
          omega

/-- Expected database and response for the witness request below. -/
def c6OkReq : RegisterPairingReq :=
  { code := "482019".toList
    public_key := c6ZeroKeyB64
    device_name := "Device A".toList
    expires_in_secs := none }

def c6OkDb : List PairingRow :=
  [{ code := "482019".toList
     public_key := List.replicate 32 0
     device_name := "Device A".toList
     expires_at := 307
     created_at := 7 }]

def c6OkResp : RegisterPairingResp := { code := "482019".toList, expires_at := 307 }

theorem register_pairing_expiry_witness :
    c6OkResp.expires_at = 7 + c6OkReq.expires_in_secs.getD 300
    ∧ (∃ row ∈ c6OkDb, row.code = c6OkReq.code
        ∧ row.expires_at = 7 + c6OkReq.expires_in_secs.getD 300
        ∧ row.created_at = 7)
    ∧ (c6OkReq.expires_in_secs.getD 300 ≤ 300 → c6OkResp.expires_at ≤ 7 + 300) :=
  register_pairing_expiry 7 [] c6OkReq c6OkDb c6OkResp (by decide)


theorem relay_message_cases (st : RelayState) (a t p : List Char) :
    (∃ st2, relay_message st a t p = .ok (202, st2))
    ∨ relay_message st a t p = .error (.NotFound "Target device not found") := by
  unfold relay_message
  split
  · split
    · exact Or.inl ⟨_, rfl⟩
    · exact Or.inl ⟨_, rfl⟩
  · exact Or.inr rfl

theorem relayBatch_no_429 (reqs : List (List Char × List Char × List Char))
    (st : RelayState) (acc : List Nat) (hacc : 429 ∉ acc) :
    429 ∉ (reqs.foldl
      (fun (acc : List Nat × RelayState) r =>
        match relay_message acc.2 r.1 r.2.1 r.2.2 with
        | .ok (s, st2) => (acc.1 ++ [s], st2)
        | .error e => (acc.1 ++ [e.status], acc.2))
      (acc, st)).1 := by
  induction reqs generalizing st acc with
  | nil => simpa using hacc
  | cons r tl ih =>
    simp only [List.foldl_cons]
    rcases relay_message_cases st r.1 r.2.1 r.2.2 with ⟨st2, hok⟩ | herr
    · rw [hok]
      exact ih st2 (acc ++ [202]) (by simp [hacc])
    · rw [herr]
      exact ih st (acc ++ [404]) (by simp [hacc, ApiError.status])

/-- Only the RateLimited variant maps to HTTP 429. -/
theorem status_eq_429_iff (e : ApiError) : e.status = 429 ↔ e = .RateLimited := by
  cases e <;> simp [ApiError.status]

theorem register_device_result (C : CryptoModel) (now : Nat)
    (devs : List (List Char)) (req : RegisterReq) :
    (∃ d, register_device C now devs req = .ok (d, 200))
    ∨ (∃ msg, register_device C now devs req = .error (.BadRequest msg))
    ∨ (∃ msg, register_device C now devs req = .error (.Unauthorized msg)) := by
  unfold register_device
  split
  · exact Or.inr (Or.inl ⟨_, rfl⟩)
  · split
    · exact Or.inr (Or.inl ⟨_, rfl⟩)
    · split
      · exact Or.inr (Or.inl ⟨_, rfl⟩)
      · split
        · next e heq =>
          refine Or.inr (Or.inl ?_)
          unfold verify_signature at heq
          split at heq
          · cases heq
            exact ⟨_, rfl⟩
          · split at heq
            · cases heq
              exact ⟨_, rfl⟩
            · cases heq
        · exact Or.inr (Or.inr ⟨_, rfl⟩)
        · exact Or.inl ⟨_, rfl⟩

theorem register_pairing_result (now : Nat) (db : List PairingRow)
    (req : RegisterPairingReq) :
    (∃ out, register_pairing now db req = .ok out)
    ∨ (∃ msg, register_pairing now db req = .error (.BadRequest msg)) := by
  unfold register_pairing
  split
  · exact Or.inr ⟨_, rfl⟩
  · split
    · exact Or.inr ⟨_, rfl⟩
    · split
      · exact Or.inr ⟨_, rfl⟩
      · exact Or.inl ⟨_, rfl⟩

/-- C7: the typed RateLimited error exists and maps to HTTP 429, but no
relay-server handler ever produces it: relay_message answers only 202 or
404 and never the RateLimited value, every whole sequence of relay requests
is free of 429 responses, and register_device and register_pairing never
answer 429 either — the configured per-minute and per-hour caps are not
enforced anywhere. -/
theorem rate_limit_never_enforced :
    ApiError.status .RateLimited = 429
    ∧ (∀ (st : RelayState) (a t p : List Char),
        relay_message st a t p ≠ .error .RateLimited
        ∧ relayStatus (relay_message st a t p) ≠ 429)
    ∧ (∀ (st : RelayState) reqs, 429 ∉ relayBatchStatuses st reqs)
    ∧ (∀ (C : CryptoModel) (now : Nat) (devs : List (List Char)) (req : RegisterReq),
        registerStatus (register_device C now devs req) ≠ 429)
    ∧ (∀ (now : Nat) (db : List PairingRow) (req : RegisterPairingReq),
        registerPairingStatus (register_pairing now db req) ≠ 429) := by
  refine ⟨rfl, ?_, ?_, ?_, ?_⟩
  · intro st a t p
    rcases relay_message_cases st a t p with ⟨st2, hok⟩ | herr
    · rw [hok]
      refine ⟨?_, ?_⟩
      · intro hh
        cases hh
      · simp [relayStatus]
    · rw [herr]
      refine ⟨?_, ?_⟩
      · intro hh
        cases hh
      · simp [relayStatus, ApiError.status]
  · intro st reqs
    exact relayBatch_no_429 reqs st [] (by simp)
  · intro C now devs req
    rcases register_device_result C now devs req with ⟨d, h⟩ | ⟨msg, h⟩ | ⟨msg, h⟩ <;>
      simp [h, registerStatus, ApiError.status]
  · intro now db req
    rcases register_pairing_result now db req with ⟨out, h⟩ | ⟨msg, h⟩ <;>
      simp [h, registerPairingStatus, ApiError.status]


/-- Whether the direct send to one peer fails. -/
def directFails (env : BroadcastEnv) (d : List Nat) : Bool :=
  match env.directSend d with
  | .ok _ => false
  | .error _ => true

theorem broadcastStep_eq (C : CryptoModel) (env : BroadcastEnv)
    (acc : Nat × Option String) (d : List Nat) :
    broadcastStep C env acc d
      = (acc.1 + (if peerAccepted C env d then 1 else 0),
         if directFails env d then directErrMsg env d else acc.2) := by
  unfold broadcastStep peerAccepted directFails directErrMsg
  cases hds : env.directSend d with
  | ok u => simp
  | error e =>
    cases hra : env.relayAvailable with
    | false => simp
    | true =>
      cases hser : env.serialized with
      | none => simp
      | some ser =>
        cases hrs : env.relaySend d (relayFallbackPayload C env.getSessionKey d ser env.nonce) with
        | ok u => simp [hrs]
        | error e2 => simp [hrs]

theorem broadcast_fold_count (C : CryptoModel) (env : BroadcastEnv)
    (ds : List (List Nat)) (n : Nat) (e : Option String) :
    (ds.foldl (broadcastStep C env) (n, e)).1 = n + ds.countP (peerAccepted C env) := by
  induction ds generalizing n e with
  | nil => simp
  | cons d tl ih =>
    rw [List.foldl_cons, broadcastStep_eq, ih, List.countP_cons]
    cases hpa : peerAccepted C env d <;> (simp; try omega)

theorem broadcast_fold_err (C : CryptoModel) (env : BroadcastEnv)
    (ds : List (List Nat)) (n : Nat) (e : Option String) :
    (ds.foldl (broadcastStep C env) (n, e)).2
      = match (ds.filter (directFails env)).getLast? with
        | some dl => directErrMsg env dl
        | none => e := by
  induction ds generalizing n e with
  | nil => simp
  | cons d tl ih =>
    rw [List.foldl_cons, broadcastStep_eq]
    by_cases hdf : directFails env d = true
    · rw [if_pos hdf, ih, List.filter_cons_of_pos (by simpa using hdf)]
      cases hft : tl.filter (directFails env) with
      | nil => simp
      | cons x xs =>
          rw [List.getLast?_cons_cons,
              List.getLast?_eq_getLast (x :: xs) (List.cons_ne_nil x xs)]
    · rw [if_neg hdf, ih, List.filter_cons_of_neg (by simpa using hdf)]

theorem directFails_of_not_accepted (C : CryptoModel) (env : BroadcastEnv)
    (d : List Nat) (h : peerAccepted C env d = false) : directFails env d = true := by
  unfold peerAccepted at h
  unfold directFails
  cases hds : env.directSend d with
  | ok u => rw [hds] at h; simp at h
  | error e => rfl

theorem directErrMsg_of_fails (env : BroadcastEnv) (d : List Nat)
    (h : directFails env d = true) : ∃ m, directErrMsg env d = some m := by
  unfold directFails at h
  unfold directErrMsg
  cases hds : env.directSend d with
  | ok u => rw [hds] at h; simp at h
  | error e => exact ⟨e, rfl⟩

/-- C9: broadcast returns ok exactly when the peer set is empty or at least
one known peer accepted the message (by direct send, or by the relay
fallback after a direct failure); when it returns an error, every peer
failed and the error is ConnectionFailed carrying the message of the last
direct-transport failure. -/
theorem broadcast_partial_success (C : CryptoModel) (env : BroadcastEnv)
    (ds : List (List Nat)) :
    (broadcast C env ds = .ok () ↔ (ds = [] ∨ ∃ d ∈ ds, peerAccepted C env d = true))
    ∧ (∀ err, broadcast C env ds = .error err →
        ds ≠ [] ∧ (∀ d ∈ ds, peerAccepted C env d = false)
        ∧ ∃ dl msg, (ds.filter (directFails env)).getLast? = some dl
            ∧ directErrMsg env dl = some msg ∧ err = .ConnectionFailed msg) := by
  have hcount := broadcast_fold_count C env ds 0 none
  have herr := broadcast_fold_err C env ds 0 none
  by_cases hemp : ds.isEmpty
  · have hnil : ds = [] := List.isEmpty_iff.mp hemp
    subst hnil
    constructor
    · simp [broadcast]
    · intro err h
      simp [broadcast] at h
  · have hne : ds ≠ [] := fun hh => by simp [hh] at hemp
    by_cases hpos : 0 < ds.countP (peerAccepted C env)
    · have hok : broadcast C env ds = .ok () := by
        unfold broadcast
        rw [if_neg hemp, if_pos (by rw [hcount]; omega)]
      refine ⟨⟨fun _ => Or.inr ?_, fun _ => hok⟩, fun err h => ?_⟩
      · exact List.countP_pos_iff.mp hpos
      · rw [hok] at h
        cases h
    · have hzero : ds.countP (peerAccepted C env) = 0 := by omega
      have hall : ∀ d ∈ ds, peerAccepted C env d = false := by
        intro d hd
        have := List.countP_eq_zero.mp hzero d hd
        simpa using this
      have hfall : ∀ d ∈ ds, directFails env d = true := fun d hd =>
        directFails_of_not_accepted C env d (hall d hd)
      have hfilter : ds.filter (directFails env) = ds := List.filter_eq_self.mpr hfall
      have hlast : ds.getLast? = some (ds.getLast hne) := List.getLast?_eq_getLast ds hne
      obtain ⟨m, hm⟩ := directErrMsg_of_fails env (ds.getLast hne)
        (hfall _ (List.getLast_mem hne))
      have herr2 : (ds.foldl (broadcastStep C env) (0, none)).2 = some m := by
        rw [herr, hfilter, hlast]
        exact hm
      have hbe : broadcast C env ds = .error (.ConnectionFailed m) := by
        unfold broadcast
        rw [if_neg hemp, if_neg (by rw [hcount]; omega), herr2]
      constructor
      · rw [hbe]
        constructor
        · intro hh
          cases hh
        · intro hh
          rcases hh with hnil | ⟨d, hd, hacc⟩
          · exact absurd hnil hne
          · rw [hall d hd] at hacc
            cases hacc
      · intro err h
        rw [hbe] at h
        cases h
        exact ⟨hne, hall, ds.getLast hne, m, by rw [hfilter]; exact hlast, hm, rfl⟩

/-- Broadcast environment in which the direct send fails for every peer and
no relay client is configured. -/
def c9Env : BroadcastEnv :=
  { directSend := fun d => if d = [1] then .error "send failed 1" else .error "send failed 2"
    relayAvailable := false
    serialized := none
    relaySend := fun _ _ => .error "relay unreachable"
    getSessionKey := none
    nonce := [] }

theorem broadcast_partial_success_witness :
    ([[1], [2]] : List (List Nat)) ≠ []
    ∧ (∀ d ∈ ([[1], [2]] : List (List Nat)), peerAccepted toyCrypto c9Env d = false)
    ∧ ∃ dl msg, (([[1], [2]] : List (List Nat)).filter (directFails c9Env)).getLast? = some dl
        ∧ directErrMsg c9Env dl = some msg
        ∧ NetworkError.ConnectionFailed "send failed 2" = .ConnectionFailed msg :=
  (broadcast_partial_success toyCrypto c9Env [[1], [2]]).2
    (.ConnectionFailed "send failed 2") (by decide)


theorem encrypt_for_storage_fst (C : CryptoModel) (ks : Keystore)
    (storageKey fresh nonce pt : List Nat)
    (hks : ksRetrieve ks storageEncryptionKeyName = some storageKey)
    (hkl : storageKey.length = 32) :
    (encrypt_for_storage C ks fresh nonce pt).1
      = nonce ++ C.aeadEnc storageKey nonce [] pt := by
  unfold encrypt_for_storage get_or_create_storage_encryption_key
  rw [hks]
  simp [hkl]

theorem decrypt_from_storage_roundtrip (C : CryptoModel) (ks : Keystore)
    (storageKey fresh nonce pt : List Nat)
    (hks : ksRetrieve ks storageEncryptionKeyName = some storageKey)
    (hkl : storageKey.length = 32) (hno : nonce.length = 12) :
    decrypt_from_storage C ks fresh (nonce ++ C.aeadEnc storageKey nonce [] pt)
      = some pt := by
  unfold decrypt_from_storage
  have hlen : (nonce ++ C.aeadEnc storageKey nonce [] pt).length = 12 + (pt.length + 16) := by
    simp [C.aeadEnc_length, hno]
  rw [if_neg (by rw [hlen]; omega)]
  unfold get_or_create_storage_encryption_key
  rw [hks]
  simp only [hkl, if_pos]
  rw [← hno, List.take_left, List.drop_left]
  exact C.aeadDec_enc storageKey nonce [] pt

/-- The device row written by store_device for a pairing-created record,
fully evaluated. -/
theorem atRest_pairing_row_eq (C : CryptoModel) (ks : Keystore)
    (fresh ownId peerPub sessionKey nonceIn nonceOut : List Nat)
    (name : List Char) (now : Nat) (plat : List Char) :
    atRestRow C ks fresh nonceOut
        (completePairingStoredDevice C ownId peerPub sessionKey nonceIn name now plat)
      = { id := pairDeviceId C peerPub
          name := name
          public_key := peerPub
          session_key := some ((encrypt_for_storage C ks fresh nonceOut
              ((encrypt C (C.hkdf ownId .StorageEncryption (some sessionKeySalt))
                sessionKey (sessionAad (pairDeviceId C peerPub)) nonceIn).toBytes)).1)
          last_seen := none
          created_at := now
          is_active := true
          platform := some plat } := rfl

/-- C5: every device record created by the pairing API carries a 60-byte
session-key blob — 12-byte nonce, 32-byte encrypted key, 16-byte tag —
under a 32-character row id, so the get_session_key callback installed by
start_network (which looks rows up by the 64-character hex encoding of the
32-byte network device id and accepts only an exactly 32-byte blob) returns
none for every such record, and consequently every relay-fallback payload
broadcast for such a device is the marker byte 0x00 followed by the
serialized message in plaintext. -/
theorem session_key_callback_returns_none (C : CryptoModel) (ks : Keystore)
    (storageKey fresh : List Nat) (db : List StoredDevice) (deviceId32 : List Nat)
    (hks : ksRetrieve ks storageEncryptionKeyName = some storageKey)
    (hkl : storageKey.length = 32)
    (hdb : ∀ row ∈ db, ∃ ownId peerPub sessionKey nonceIn nonceOut name now plat,
        sessionKey.length = 32 ∧ nonceIn.length = 12 ∧ nonceOut.length = 12 ∧
        row = atRestRow C ks fresh nonceOut
          (completePairingStoredDevice C ownId peerPub sessionKey nonceIn name now plat))
    (hdev : deviceId32.length = 32) :
    (∀ row ∈ db, row.id.length = 32
        ∧ ∃ inner, row.session_key.bind (decrypt_from_storage C ks fresh) = some inner
            ∧ inner.length = 60 ∧ ¬ (inner.length = 32))
    ∧ sessionKeyCallback C ks fresh db deviceId32 = none
    ∧ (∀ ser nonce,
        relayFallbackPayload C (some (sessionKeyCallback C ks fresh db)) deviceId32 ser nonce
          = 0x00 :: ser) := by
  have hrows : ∀ row ∈ db, row.id.length = 32
      ∧ ∃ inner, row.session_key.bind (decrypt_from_storage C ks fresh) = some inner
          ∧ inner.length = 60 ∧ ¬ (inner.length = 32) := by
    intro row hr
    obtain ⟨ownId, peerPub, sessionKey, nonceIn, nonceOut, name, now, plat,
      hsk, hni, hno, hrow⟩ := hdb row hr
    subst hrow
    rw [atRest_pairing_row_eq]
    have hinlen : (encrypt C (C.hkdf ownId .StorageEncryption (some sessionKeySalt))
        sessionKey (sessionAad (pairDeviceId C peerPub)) nonceIn).toBytes.length = 60 := by
      rw [encrypt_toBytes_length, hni, hsk]
    refine ⟨pairDeviceId_length C peerPub, ?_⟩
    refine ⟨_, ?_, hinlen, by omega⟩
    show (decrypt_from_storage C ks fresh ((encrypt_for_storage C ks fresh nonceOut _).1)) = _
    rw [encrypt_for_storage_fst C ks storageKey fresh nonceOut _ hks hkl]
    exact decrypt_from_storage_roundtrip C ks storageKey fresh nonceOut _ hks hkl hno
  have hnone : sessionKeyCallback C ks fresh db deviceId32 = none := by
    unfold sessionKeyCallback get_device
    have hfind : db.find? (fun r => r.id == hexEncode deviceId32) = none := by
      rw [List.find?_eq_none]
      intro r hrmem
      simp only [beq_iff_eq]
      intro heq
      have hlen := congrArg List.length heq
      rw [(hrows r hrmem).1, hexEncode_length, hdev] at hlen
      omega
    rw [hfind]
    rfl
  refine ⟨hrows, hnone, ?_⟩
  intro ser nonce
  show (match sessionKeyCallback C ks fresh db deviceId32 with
        | some sessionKey => 0x01 :: (encrypt C sessionKey ser deviceId32 nonce).toBytes
        | none => 0x00 :: ser) = 0x00 :: ser
  rw [hnone]


/-- Concrete keystore, pairing-created device row and database for the
witness below. -/
def c5Ks : Keystore := [(storageEncryptionKeyName, List.replicate 32 9)]

def c5Row : StoredDevice :=
  atRestRow toyCrypto c5Ks [] (List.replicate 12 6)
    (completePairingStoredDevice toyCrypto [1] [7] (List.replicate 32 3) (List.replicate 12 4)
      "Peer".toList 0 "linux".toList)

def c5Db : List StoredDevice := [c5Row]

theorem session_key_callback_returns_none_witness :
    sessionKeyCallback toyCrypto c5Ks [] c5Db (List.replicate 32 0) = none
    ∧ relayFallbackPayload toyCrypto (some (sessionKeyCallback toyCrypto c5Ks [] c5Db))
        (List.replicate 32 0) [1, 2, 3] [] = 0x00 :: [1, 2, 3] := by
  have hdb : ∀ row ∈ c5Db, ∃ ownId peerPub sessionKey nonceIn nonceOut name now plat,
      sessionKey.length = 32 ∧ nonceIn.length = 12 ∧ nonceOut.length = 12 ∧
      row = atRestRow toyCrypto c5Ks [] nonceOut
        (completePairingStoredDevice toyCrypto ownId peerPub sessionKey nonceIn name now plat) := by
    intro row hr
    rw [show c5Db = [c5Row] from rfl, List.mem_singleton] at hr
    subst hr
    exact ⟨[1], [7], List.replicate 32 3, List.replicate 12 4, List.replicate 12 6,
      "Peer".toList, 0, "linux".toList, by decide, by decide, by decide, rfl⟩
  have h := session_key_callback_returns_none toyCrypto c5Ks (List.replicate 32 9) [] c5Db
    (List.replicate 32 0) (by decide) (by decide) hdb (by decide)
  exact ⟨h.2.1, h.2.2 [1, 2, 3] []⟩


end Toss
